import Mathlib

/-!
Verification development for the nba-injury-alert backend pipeline.

Shallow embedding of the change-detection and notification-dispatch core:
the content-hash deduplicating fetcher (`backend/fetcher/base.py`,
`backend/fetcher/nba.py`), the injury-report diff engine
(`backend/processor/injury.py`), and the notification service
(`backend/notifier/service.py`, `backend/notifier/channels.py`).

Python dicts are modelled as association lists with dict semantics made
explicit (insertion order, first-match lookup, last-write-wins update),
machine-level values as `Nat`/`Int`, fallible operations as `Except`,
and the database as explicit state threaded through the functions.
-/

namespace NbaInjuryAlert

/-! ## String-order and parsing helpers

Python compares strings by Unicode code point, lexicographically.
`charListLe`/`strLe` reproduce that order over the character data.
-/

/-- Code-point lexicographic `≤` on character lists (Python string order). -/
def charListLe : List Char → List Char → Bool
  | [], _ => true
  | _ :: _, [] => false
  | a :: as, b :: bs =>
    if a.toNat < b.toNat then true
    else if b.toNat < a.toNat then false
    else charListLe as bs

/-- Python-style `a <= b` on strings (code-point lexicographic). -/
def strLe (a b : String) : Bool := charListLe a.data b.data

/-- Split a character list on a separator character.
Models Python `str.split(sep)` for a one-character separator. -/
def splitOnChar (sep : Char) : List Char → List (List Char)
  | [] => [[]]
  | c :: cs =>
    let rest := splitOnChar sep cs
    if c = sep then [] :: rest
    else match rest with
      | [] => [[c]]
      | r :: rs => (c :: r) :: rs

/-- ASCII whitespace recognizer used for stripping around `int()` input. -/
def isPySpace (c : Char) : Bool :=
  c = ' ' ∨ c = '\t' ∨ c = '\n' ∨ c = '\x0b' ∨ c = '\x0c' ∨ c = '\r'

/-- All-decimal-digit parse of a nonempty character list. -/
def digitsToNat? : List Char → Option Nat
  | [] => none
  | cs =>
    if cs.all (fun c => c.isDigit) then
      some (cs.foldl (fun acc c => acc * 10 + (c.toNat - 48)) 0)
    else none

/-- Model of Python `int(s)` on a string: strip surrounding whitespace,
optional sign, then decimal digits.  (Digit-group underscores, accepted by
CPython since 3.6, are not modelled; every input exercised by the claims is
plain digits.)  Returns `none` where `int()` raises `ValueError`. -/
def pyInt (s : String) : Option Int :=
  let cs := (s.data.dropWhile isPySpace).reverse.dropWhile isPySpace |>.reverse
  match cs with
  | '+' :: rest => (digitsToNat? rest).map Int.ofNat
  | '-' :: rest => (digitsToNat? rest).map (fun n => -(Int.ofNat n))
  | rest => (digitsToNat? rest).map Int.ofNat

/-! ## JSON payloads and `json.dumps`

`BaseFetcher.generate_hash` (backend/fetcher/base.py, lines 48-62) hashes
`json.dumps(data, sort_keys=True)` for dict/list payloads.  JSON values are
modelled by the mutual inductives below; numbers are restricted to integers
(the payloads the pipeline hashes carry ids and counts, and modelling CPython
float repr is out of scope for every claim).
-/

mutual
/-- A JSON value (object fields kept in insertion order, as in a Python dict). -/
inductive Json where
  | null : Json
  | bool (b : Bool) : Json
  | num (n : Int) : Json
  | str (s : String) : Json
  | arr (items : JsonArr) : Json
  | obj (fields : JsonObj) : Json

/-- A JSON array. -/
inductive JsonArr where
  | nil : JsonArr
  | cons (hd : Json) (tl : JsonArr) : JsonArr

/-- JSON object fields: an ordered key/value sequence. -/
inductive JsonObj where
  | nil : JsonObj
  | cons (key : String) (val : Json) (tl : JsonObj) : JsonObj
end

/-- The keys of an object, in order. -/
def objKeys : JsonObj → List String
  | .nil => []
  | .cons k _ t => k :: objKeys t

/-- First-match key lookup, as Python dict access after dict construction. -/
def objLookup (k : String) : JsonObj → Option Json
  | .nil => none
  | .cons k' v t => if k' = k then some v else objLookup k t

/-- Number of elements of a JSON array. -/
def arrLen : JsonArr → Nat
  | .nil => 0
  | .cons _ t => arrLen t + 1

/-- Positional access into a JSON array. -/
def arrGet : Nat → JsonArr → Option Json
  | _, .nil => none
  | 0, .cons x _ => some x
  | n + 1, .cons _ t => arrGet n t

/-- Ordered insert of one field by key (code-point order on keys), keeping a
new key before any equal key it meets. -/
def insertObj (k : String) (v : Json) : JsonObj → JsonObj
  | .nil => .cons k v .nil
  | .cons k' v' t =>
    if strLe k k' then .cons k v (.cons k' v' t)
    else .cons k' v' (insertObj k v t)

mutual
/-- Canonical form of a JSON value: every object's fields sorted by key
(code-point order, as `sorted` on `str` keys in CPython's encoder when
`sort_keys=True` is set), recursively. -/
def canon : Json → Json
  | .null => .null
  | .bool b => .bool b
  | .num n => .num n
  | .str s => .str s
  | .arr xs => .arr (canonArr xs)
  | .obj fs => .obj (canonObj fs)

/-- Canonical form of each element of an array. -/
def canonArr : JsonArr → JsonArr
  | .nil => .nil
  | .cons x t => .cons (canon x) (canonArr t)

/-- Canonicalize the values of an object, then insertion-sort its fields by
key.  Extensionally the stable `sorted(items)` of the CPython encoder. -/
def canonObj : JsonObj → JsonObj
  | .nil => .nil
  | .cons k v t => insertObj k (canon v) (canonObj t)
end

/-- Lowercase hex digit. -/
def hexDigitChar (d : Nat) : Char :=
  if d < 10 then Char.ofNat (48 + d) else Char.ofNat (87 + d)

/-- Four lowercase hex digits (most significant first). -/
def hex4 (n : Nat) : String :=
  String.mk [hexDigitChar ((n >>> 12) &&& 15), hexDigitChar ((n >>> 8) &&& 15),
             hexDigitChar ((n >>> 4) &&& 15), hexDigitChar (n &&& 15)]

/-- `\uXXXX` escape, with a UTF-16 surrogate pair above the BMP, exactly as
CPython's `ensure_ascii` JSON encoder emits it. -/
def uEscape (n : Nat) : String :=
  if n < 0x10000 then "\\u" ++ hex4 n
  else
    "\\u" ++ hex4 (0xd800 + ((n - 0x10000) >>> 10)) ++
    "\\u" ++ hex4 (0xdc00 + ((n - 0x10000) &&& 0x3ff))

/-- One character of CPython's `py_encode_basestring_ascii`: short escapes for
the classic control characters, `\uXXXX` for everything outside `0x20..0x7e`,
the character itself otherwise. -/
def escapeJsonChar (c : Char) : String :=
  if c = '"' then "\\\""
  else if c = '\\' then "\\\\"
  else if c = '\x08' then "\\b"
  else if c = '\x0c' then "\\f"
  else if c = '\n' then "\\n"
  else if c = '\r' then "\\r"
  else if c = '\t' then "\\t"
  else if c.toNat < 0x20 ∨ c.toNat > 0x7e then uEscape c.toNat
  else String.singleton c

/-- A JSON string literal under `ensure_ascii=True` (the `json.dumps` default). -/
def encodeJsonString (s : String) : String :=
  "\"" ++ String.join (s.data.map escapeJsonChar) ++ "\""

mutual
/-- Order-preserving serialization of a JSON value with the `json.dumps`
defaults: separators `", "` and `": "`, `ensure_ascii` string escaping,
`true`/`false`/`null` literals.  Applied to `canon j` this is
`json.dumps(j, sort_keys=True)`; applied to `j` it is plain `json.dumps(j)`
(used for `raw_content` in `NBAInjuryFetcher.fetch`). -/
def pyDumps : Json → String
  | .null => "null"
  | .bool b => if b then "true" else "false"
  | .num n => Int.repr n
  | .str s => encodeJsonString s
  | .arr xs => "[" ++ pyDumpsArr xs ++ "]"
  | .obj fs => "\x7b" ++ pyDumpsObj fs ++ "\x7d"

/-- Comma-joined serialization of array elements. -/
def pyDumpsArr : JsonArr → String
  | .nil => ""
  | .cons x .nil => pyDumps x
  | .cons x t => pyDumps x ++ ", " ++ pyDumpsArr t

/-- Comma-joined serialization of object fields (in stored order). -/
def pyDumpsObj : JsonObj → String
  | .nil => ""
  | .cons k v .nil => encodeJsonString k ++ ": " ++ pyDumps v
  | .cons k v t => encodeJsonString k ++ ": " ++ pyDumps v ++ ", " ++ pyDumpsObj t
end

/-- `json.dumps(data, sort_keys=True)`: serialize with every object's items
sorted by key.  Decomposed as the recursive key-sort `canon` followed by the
order-preserving serializer. -/
def pyDumpsSorted (j : Json) : String := pyDumps (canon j)

/-! ## SHA-256 (`hashlib.sha256(...).hexdigest()`)

A direct implementation of FIPS 180-4 SHA-256 over `Nat` with explicit
`% 2^32` reduction, so that `generate_hash` is the honest composition
`sha256 ∘ utf8 ∘ serialize` of the source. -/

/-- Truncate to a 32-bit word. -/
def w32 (n : Nat) : Nat := n % 4294967296

/-- Rotate a 32-bit word right by `k`. -/
def rotr32 (k n : Nat) : Nat := w32 ((n >>> k) ||| (n <<< (32 - k)))

/-- UTF-8 encoding of one character (scalar values only, as Lean `Char`). -/
def charUtf8 (c : Char) : List Nat :=
  let n := c.toNat
  if n < 0x80 then [n]
  else if n < 0x800 then
    [0xc0 ||| (n >>> 6), 0x80 ||| (n &&& 0x3f)]
  else if n < 0x10000 then
    [0xe0 ||| (n >>> 12), 0x80 ||| ((n >>> 6) &&& 0x3f), 0x80 ||| (n &&& 0x3f)]
  else
    [0xf0 ||| (n >>> 18), 0x80 ||| ((n >>> 12) &&& 0x3f),
     0x80 ||| ((n >>> 6) &&& 0x3f), 0x80 ||| (n &&& 0x3f)]

/-- `s.encode("utf-8")` as a byte list. -/
def utf8Bytes (s : String) : List Nat := (s.data.map charUtf8).flatten

/-- Split a list into chunks of `n + 1` elements (the successor argument keeps
the chunk size positive so the recursion terminates). -/
def chunksOf (n : Nat) (l : List α) : List (List α) :=
  if l.isEmpty then []
  else l.take (n + 1) :: chunksOf n (l.drop (n + 1))
termination_by l.length
decreasing_by
  cases l with
  | nil => simp_all
  | cons a t => simp [List.length_drop]; omega

/-- SHA-256 round constants (fractional parts of cube roots of the first 64
primes). -/
def sha256K : List Nat :=
  [1116352408, 1899447441, 3049323471, 3921009573, 961987163,
   1508970993, 2453635748, 2870763221, 3624381080, 310598401,
   607225278, 1426881987, 1925078388, 2162078206, 2614888103,
   3248222580, 3835390401, 4022224774, 264347078, 604807628,
   770255983, 1249150122, 1555081692, 1996064986, 2554220882,
   2821834349, 2952996808, 3210313671, 3336571891, 3584528711,
   113926993, 338241895, 666307205, 773529912, 1294757372,
   1396182291, 1695183700, 1986661051, 2177026350, 2456956037,
   2730485921, 2820302411, 3259730800, 3345764771, 3516065817,
   3600352804, 4094571909, 275423344, 430227734, 506948616,
   659060556, 883997877, 958139571, 1322822218, 1537002063,
   1747873779, 1955562222, 2024104815, 2227730452, 2361852424,
   2428436474, 2756734187, 3204031479, 3329325298]

/-- SHA-256 initial hash value. -/
def sha256H0 : List Nat :=
  [1779033703, 3144134277, 1013904242, 2773480762,
   1359893119, 2600822924, 528734635, 1541459225]

/-- Merkle–Damgård padding: `0x80`, zeros to 56 mod 64, 8-byte big-endian bit
length. -/
def sha256Pad (msg : List Nat) : List Nat :=
  let bitLen := 8 * msg.length
  let zeros := (120 - ((msg.length + 1) % 64)) % 64
  msg ++ [0x80] ++ List.replicate zeros 0 ++
    ([56, 48, 40, 32, 24, 16, 8, 0].map (fun s => (bitLen >>> s) % 256))

/-- Big-endian 32-bit words of a 64-byte block. -/
def blockWords (block : List Nat) : List Nat :=
  (chunksOf 3 block).map (fun bs =>
    match bs with
    | [b0, b1, b2, b3] => ((b0 <<< 24) ||| (b1 <<< 16) ||| (b2 <<< 8) ||| b3)
    | _ => 0)

/-- Extend 16 message words to the 64-entry schedule. -/
def sha256Schedule (w : List Nat) : List Nat :=
  (List.range 48).foldl
    (fun acc _ =>
      let m := acc.length
      let x15 := acc.getD (m - 15) 0
      let x2 := acc.getD (m - 2) 0
      let s0 := (rotr32 7 x15) ^^^ (rotr32 18 x15) ^^^ (x15 >>> 3)
      let s1 := (rotr32 17 x2) ^^^ (rotr32 19 x2) ^^^ (x2 >>> 10)
      acc ++ [w32 (acc.getD (m - 16) 0 + s0 + acc.getD (m - 7) 0 + s1)])
    w

/-- One compression round of SHA-256. -/
def sha256Round (st : List Nat) (kw : Nat × Nat) : List Nat :=
  match st with
  | [a, b, c, d, e, f, g, h] =>
    let s1 := (rotr32 6 e) ^^^ (rotr32 11 e) ^^^ (rotr32 25 e)
    let ch := (e &&& f) ^^^ ((e ^^^ 0xffffffff) &&& g)
    let temp1 := w32 (h + s1 + ch + kw.1 + kw.2)
    let s0 := (rotr32 2 a) ^^^ (rotr32 13 a) ^^^ (rotr32 22 a)
    let maj := (a &&& b) ^^^ (a &&& c) ^^^ (b &&& c)
    let temp2 := w32 (s0 + maj)
    [w32 (temp1 + temp2), a, b, c, w32 (d + temp1), e, f, g]
  | other => other

/-- Process one 64-byte block into the running hash. -/
def sha256Block (h : List Nat) (block : List Nat) : List Nat :=
  let ws := sha256Schedule (blockWords block)
  let st := (sha256K.zip ws).foldl sha256Round h
  List.zipWith (fun a b => w32 (a + b)) h st

/-- SHA-256 digest of a byte list, as a lowercase hex string. -/
def sha256Hex (msg : List Nat) : String :=
  let final := (chunksOf 63 (sha256Pad msg)).foldl sha256Block sha256H0
  String.join (final.map (fun word => hex4 (word >>> 16) ++ hex4 (word &&& 0xffff)))

/-- `BaseFetcher.generate_hash` (backend/fetcher/base.py, lines 48-62): dict or
list payloads are serialized with `json.dumps(data, sort_keys=True)`, a string
payload is hashed as is; the result is `hashlib.sha256(data.encode("utf-8"))
.hexdigest()`.  (Bare numeric/bool/null payloads are outside the source's
`Union[str, Dict, List]` signature; the catch-all branch is never exercised.) -/
def generate_hash : Json → String
  | .str s => sha256Hex (utf8Bytes s)
  | j => sha256Hex (utf8Bytes (pyDumpsSorted j))

/-! ## Fetcher error type and HTTP request loop

`FetcherError` (backend/utils/errors.py, lines 47-70) carries a message, an
HTTP status code defaulting to 500 and an optional `retry_after`; the
`details` dict only mirrors `retry_after` or records the response text and is
not consulted anywhere in the pipeline, so it is represented by the
`details_response` field for the HTTP-error raise site. -/

structure PyFetcherError where
  message : String
  status_code : Nat := 500
  retry_after : Option Nat := none
  details_response : Option String := none
  deriving DecidableEq, Repr

/-- Outcome of one network attempt as seen by `HttpFetcher._make_request`:
a response with a status (and the parsed `Retry-After` header when present),
an `httpx.TimeoutException`, or an `httpx.RequestError` carrying a message. -/
inductive ReqOutcome where
  | response (status : Nat) (body : String) (retryAfterHeader : Option Nat)
  | timeout
  | connError (msg : String)
  deriving DecidableEq, Repr

/-- A successful HTTP response as returned to the caller. -/
structure HttpResponse where
  status : Nat
  body : String
  deriving DecidableEq, Repr

/-- `HttpFetcher._make_request` (backend/fetcher/base.py, lines 88-182),
with the network abstracted as `env : Nat -> ReqOutcome` giving the outcome of
the attempt made at retry count `i` (every attempt reuses the same method,
url, params, data and headers, so the attempt index is the only thing that
varies).  429 raises a rate-limit `FetcherError` immediately with
`retry_after` from the header (default 60); any other `>= 400` status, a
timeout or a connection error recurses with `retry_count + 1` while
`retry_count < max_retries` and otherwise raises.  There is no sleep anywhere
in the source between attempts. -/
def makeRequest (env : Nat → ReqOutcome) (maxRetries : Nat) (retryCount : Nat) :
    Except PyFetcherError HttpResponse :=
  match env retryCount with
  | .response status body retryAfterHeader =>
    if status = 429 then
      .error { message := "Rate limited by the API", status_code := 429,
               retry_after := some (retryAfterHeader.getD 60) }
    else if 400 ≤ status then
      if retryCount < maxRetries then makeRequest env maxRetries (retryCount + 1)
      else .error { message := "HTTP error: " ++ Nat.repr status, status_code := status,
                    details_response := some body }
    else .ok { status := status, body := body }
  | .timeout =>
    if retryCount < maxRetries then makeRequest env maxRetries (retryCount + 1)
    else .error { message := "Request timed out after retries" }
  | .connError msg =>
    if retryCount < maxRetries then makeRequest env maxRetries (retryCount + 1)
    else .error { message := "Request error: " ++ msg }
termination_by maxRetries - retryCount
decreasing_by all_goals omega

/-- The error a run of `_make_request` raises once the retry ceiling is
exhausted, as a function of the final attempt's outcome (the raise sites at
backend/fetcher/base.py lines 154-158, 171 and 182). -/
def exhaustedError : ReqOutcome → PyFetcherError
  | .response status body _ =>
    { message := "HTTP error: " ++ Nat.repr status, status_code := status,
      details_response := some body }
  | .timeout => { message := "Request timed out after retries" }
  | .connError msg => { message := "Request error: " ++ msg }

/-- A transient attempt outcome: a non-429 error status, a timeout, or a
connection error (spec section 4.1). -/
def isTransient : ReqOutcome → Bool
  | .response status _ _ => 400 ≤ status && status ≠ 429
  | .timeout => true
  | .connError _ => true

/-! ## NBA fetcher: dedup gate and error wrapping -/

/-- A persisted `InjuryReport` row (backend/models/injury.py, lines 12-28).
`report_hash` has a unique constraint in the model. -/
structure StoredReport where
  id : Nat
  report_hash : String
  report_date : Nat
  source_url : String
  raw_content : String
  deriving DecidableEq, Repr

/-- The dict returned by `NBAInjuryFetcher.fetch`. -/
structure FetchResult where
  data : Json
  hash : String
  is_new : Bool
  report_id : Option Nat

/-- The blanket `except Exception` handler at the end of
`NBAInjuryFetcher.fetch` (backend/fetcher/nba.py, lines 102-104): whatever was
raised inside — including the rate-limit `FetcherError` from `_make_request` —
is replaced by a fresh `FetcherError` built from the message alone, so the
constructor defaults `status_code = 500` and `retry_after = None` apply. -/
def wrapFetchError (e : PyFetcherError) : PyFetcherError :=
  { message := "Failed to fetch NBA injury report: " ++ e.message }

/-- `NBAInjuryFetcher.fetch` (backend/fetcher/nba.py, lines 55-104).  The
request+JSON-decode step is abstracted as `req` (its error is whatever
`_make_request` raised); the database holding `InjuryReport` rows is threaded
explicitly.  On a hash hit nothing is stored and `is_new` is false; otherwise
the report is persisted before returning and `is_new` is true.  Row ids model
the autoincrement primary key. -/
def nbaFetch (req : Except PyFetcherError Json) (now : Nat) (sourceUrl : String)
    (db : List StoredReport) : Except PyFetcherError (FetchResult × List StoredReport) :=
  match req with
  | .error e => .error (wrapFetchError e)
  | .ok data =>
    let reportHash := generate_hash data
    match db.find? (fun r => r.report_hash == reportHash) with
    | some _ => .ok ({ data := data, hash := reportHash, is_new := false, report_id := none }, db)
    | none =>
      let rid := db.length + 1
      .ok ({ data := data, hash := reportHash, is_new := true, report_id := some rid },
           db ++ [{ id := rid, report_hash := reportHash, report_date := now,
                    source_url := sourceUrl, raw_content := pyDumps data }])

/-- One iteration of the `while self._running` loop of
`NBAInjuryPoller.start_polling` (backend/fetcher/nba.py, lines 147-166),
summarized by its observable effects: the sleeps it performs, in order, and
whether the callback fired.  On success it sleeps the poll interval; on a
`FetcherError` whose `retry_after` is truthy (present and nonzero) it sleeps
that wait and `continue`s past the interval sleep; any other error falls
through to the interval sleep. -/
def pollIterationSleeps (fetchResult : Except PyFetcherError FetchResult)
    (pollInterval : Nat) : List Nat × Bool :=
  match fetchResult with
  | .ok r => ([pollInterval], r.is_new)
  | .error e =>
    match e.retry_after with
    | some w => if w ≠ 0 then ([w], false) else ([pollInterval], false)
    | none => ([pollInterval], false)

/-! ## Injury report diff engine (`InjuryReportProcessor.compute_diff`) -/

/-- One entry of a report's `player_statuses` list, with the fields
`compute_diff` reads.  (`game_date`/`opponent` and the storage bookkeeping ids
also present in those dicts are never read by the diff.) -/
structure PlayerStatus where
  player_id : Nat
  player_name : String
  team : String
  status : String
  reason : Option String := none
  details : Option String := none
  rank : Option Nat := none
  deriving DecidableEq, Repr

/-- One change dict emitted by `compute_diff`. -/
structure ChangeRec where
  player_id : Nat
  player_name : String
  team : String
  old_status : Option String
  new_status : String
  reason : Option String
  details : Option String
  rank : Option Nat
  deriving DecidableEq, Repr

/-- Python dict update semantics for
`{status["player_id"]: status for status in statuses}`: an existing key keeps
its position and takes the new value, a new key is appended. -/
def upsertStatus : List (Nat × PlayerStatus) → Nat → PlayerStatus → List (Nat × PlayerStatus)
  | [], k, v => [(k, v)]
  | (k', v') :: rest, k, v =>
    if k' = k then (k', v) :: rest else (k', v') :: upsertStatus rest k v

/-- The `..._by_player` dict comprehensions of `compute_diff`
(backend/processor/injury.py, lines 103-104), as an insertion-ordered
association list with unique keys. -/
def byPlayer (l : List PlayerStatus) : List (Nat × PlayerStatus) :=
  l.foldl (fun acc s => upsertStatus acc s.player_id s) []

/-- Dict key lookup (`player_id in d` / `d[player_id]`). -/
def lookupStatus (d : List (Nat × PlayerStatus)) (k : Nat) : Option PlayerStatus :=
  (d.find? (fun e => e.1 == k)).map Prod.snd

/-- The change dict built for a player present in both reports with a
different status (backend/processor/injury.py, lines 114-123). -/
def changedRec (pid : Nat) (cs ps : PlayerStatus) : ChangeRec :=
  { player_id := pid, player_name := cs.player_name, team := cs.team,
    old_status := some ps.status, new_status := cs.status,
    reason := cs.reason, details := cs.details, rank := cs.rank }

/-- The change dict built for a player only in the current report
(lines 128-137): `old_status = None`. -/
def addedRec (pid : Nat) (cs : PlayerStatus) : ChangeRec :=
  { player_id := pid, player_name := cs.player_name, team := cs.team,
    old_status := none, new_status := cs.status,
    reason := cs.reason, details := cs.details, rank := cs.rank }

/-- The change dict built for a player only in the previous report
(lines 142-151): the new status is hard-coded to the `"ACTIVE"` baseline and
reason/details are dropped, while the rank is carried over. -/
def removedRec (pid : Nat) (ps : PlayerStatus) : ChangeRec :=
  { player_id := pid, player_name := ps.player_name, team := ps.team,
    old_status := some ps.status, new_status := "ACTIVE",
    reason := none, details := none, rank := ps.rank }

/-- `InjuryReportProcessor.compute_diff` (backend/processor/injury.py, lines
102-151): three passes over the two by-player dicts — status changes for
players in both, additions for players only in `current`, removals (to
`"ACTIVE"`) for players only in `previous` — concatenated in that order. -/
def computeDiff (current previous : List PlayerStatus) : List ChangeRec :=
  let currentByPlayer := byPlayer current
  let previousByPlayer := byPlayer previous
  (currentByPlayer.filterMap fun e =>
    match lookupStatus previousByPlayer e.1 with
    | some ps => if e.2.status ≠ ps.status then some (changedRec e.1 e.2 ps) else none
    | none => none) ++
  (currentByPlayer.filterMap fun e =>
    if (lookupStatus previousByPlayer e.1).isNone then some (addedRec e.1 e.2) else none) ++
  (previousByPlayer.filterMap fun e =>
    if (lookupStatus currentByPlayer e.1).isNone then some (removedRec e.1 e.2) else none)

/-- What claim C1 predicts `compute_diff` emits for one subject: the per-case
record determined by the two by-player dict lookups. -/
def diffExpected (current previous : List PlayerStatus) (pid : Nat) : List ChangeRec :=
  match lookupStatus (byPlayer current) pid, lookupStatus (byPlayer previous) pid with
  | some cs, some ps => if cs.status ≠ ps.status then [changedRec pid cs ps] else []
  | some cs, none => [addedRec pid cs]
  | none, some ps => [removedRec pid ps]
  | none, none => []

/-- The claim C1 scenario, current snapshot (names/teams are free context the
claim leaves unconstrained). -/
def scenarioCurrent : List PlayerStatus :=
  [{ player_id := 1, player_name := "Player One", team := "BOS", status := "QUESTIONABLE" },
   { player_id := 2, player_name := "Player Two", team := "LAL", status := "OUT" }]

/-- The claim C1 scenario, previous snapshot. -/
def scenarioPrevious : List PlayerStatus :=
  [{ player_id := 1, player_name := "Player One", team := "BOS", status := "OUT" }]

/-! ## Notification service data model (backend/models, backend/notifier) -/

/-- A `Player` row as read through `change.player` (backend/models/player.py). -/
structure DbPlayer where
  id : Nat
  name : String
  team : String
  current_rank : Option Nat
  deriving DecidableEq, Repr

/-- A `StatusChange` row (backend/models/injury.py, lines 60-85) with its
`player` relationship inlined. -/
structure DbStatusChange where
  id : Nat
  player_id : Nat
  old_status : Option String
  new_status : String
  change_date : Nat
  report_id : Nat
  notification_sent : Bool
  notification_date : Option Nat
  player : DbPlayer
  deriving DecidableEq, Repr

/-- A `NotificationSetting` row (backend/models/user.py, lines 64-86): scoped
to a player or a team, with non-nullable per-channel flags. -/
structure NotifSetting where
  player_id : Option Nat
  team : Option String
  email_enabled : Bool
  push_enabled : Bool
  web_enabled : Bool
  min_importance : Nat := 3
  deriving DecidableEq, Repr

/-- A `User` row (backend/models/user.py, lines 29-61) with its
`notification_settings` relationship inlined, in relationship order. -/
structure DbUser where
  id : Nat
  email : String
  is_active : Bool
  email_notifications : Bool
  push_notifications : Bool
  web_notifications : Bool
  quiet_hours_start : Option String
  quiet_hours_end : Option String
  notification_settings : List NotifSetting
  deriving DecidableEq, Repr

/-! ## Quiet hours (`NotificationService._is_in_quiet_hours`) -/

/-- Parse one `"HH:MM"` bound the way the source does:
`map(int, s.split(":"))` unpacked into exactly two values, then
`datetime.time(hour, minute)` which requires `0 <= hour <= 23` and
`0 <= minute <= 59`.  The result is the bound as seconds of day (`time`
comparison is lexicographic on hour, minute, second, microsecond, which for
zero-second bounds coincides with seconds-of-day order).  `none` where the
source raises `ValueError`. -/
def parseClockSeconds (s : String) : Option Nat :=
  match splitOnChar ':' s.data with
  | [a, b] =>
    match pyInt (List.asString a), pyInt (List.asString b) with
    | some h, some m =>
      if 0 ≤ h ∧ h ≤ 23 ∧ 0 ≤ m ∧ m ≤ 59 then some (h.toNat * 3600 + m.toNat * 60)
      else none
    | _, _ => none
  | _ => none

/-- `NotificationService._is_in_quiet_hours` (backend/notifier/service.py,
lines 231-265) with the current time of day passed explicitly (seconds of
day, since `datetime.now().time()` carries seconds).  A missing *or empty*
bound is falsy and returns false; a parsing failure is caught and returns
false; otherwise the same-day window is inclusive on both ends and the
midnight-spanning window is the corresponding disjunction. -/
def isInQuietHours (u : DbUser) (nowSec : Nat) : Bool :=
  match u.quiet_hours_start, u.quiet_hours_end with
  | some qs, some qe =>
    if qs = "" ∨ qe = "" then false
    else
      match parseClockSeconds qs, parseClockSeconds qe with
      | some startTime, some endTime =>
        if startTime ≤ endTime then
          decide (startTime ≤ nowSec ∧ nowSec ≤ endTime)
        else
          decide (nowSec ≥ startTime ∨ nowSec ≤ endTime)
      | _, _ => false
  | _, _ => false

/-! ## Notification formatting (`NotificationFormatter`, backend/notifier/base.py) -/

/-- Python `.join` of lines with the newline separator. -/
def joinLines : List String → String
  | [] => ""
  | [x] => x
  | x :: xs => x ++ "\n" ++ joinLines xs

/-- `NotificationFormatter.format_injury_change` (backend/notifier/base.py,
lines 69-123): the (subject, message) pair (an empty reason/details string is
falsy and contributes nothing, like an absent one). -/
def formatInjuryChange (playerName team : String) (oldStatus : Option String)
    (newStatus : String) (reason details : Option String) : String × String :=
  let subject :=
    match oldStatus with
    | none => playerName ++ " (" ++ team ++ ") added to injury report: " ++ newStatus
    | some old =>
      if newStatus = "ACTIVE" then playerName ++ " (" ++ team ++ ") removed from injury report"
      else playerName ++ " (" ++ team ++ ") status change: " ++ old ++ " → " ++ newStatus
  let message := joinLines
    (["Player: " ++ playerName, "Team: " ++ team] ++
     (match oldStatus with
      | none => ["Status: " ++ newStatus]
      | some old => ["Previous Status: " ++ old, "New Status: " ++ newStatus]) ++
     (match reason with
      | some r => if r ≠ "" then ["Reason: " ++ r] else []
      | none => []) ++
     (match details with
      | some d => if d ≠ "" then ["Details: " ++ d] else []
      | none => []))
  (subject, message)

/-- `NotificationFormatter.format_html_injury_change` (backend/notifier/base.py,
lines 125-177), reproducing the f-string template (a zero rank is falsy and
renders nothing, like an absent one). -/
def formatHtmlInjuryChange (playerName team : String) (oldStatus : Option String)
    (newStatus : String) (reason details : Option String) (rank : Option Nat) : String :=
  let statusChangeType :=
    match oldStatus with
    | none => ("<span class='status new'>" ++ newStatus ++ "</span>", "added")
    | some old =>
      if newStatus = "ACTIVE" then ("<span class='status active'>ACTIVE</span>", "removed")
      else ("<span class='status old'>" ++ old ++ "</span> → <span class='status new'>" ++
            newStatus ++ "</span>", "changed")
  let rankPart :=
    match rank with
    | some r => if r ≠ 0 then "<div class=\"rank\">Rank: " ++ Nat.repr r ++ "</div>" else ""
    | none => ""
  let reasonPart :=
    match reason with
    | some r => if r ≠ "" then "<div class=\"reason\">" ++ r ++ "</div>" else ""
    | none => ""
  let detailsPart :=
    match details with
    | some d => if d ≠ "" then "<div class=\"details\">" ++ d ++ "</div>" else ""
    | none => ""
  "\n        <div class=\"injury-alert " ++ statusChangeType.2 ++ "\">\n" ++
  "            <div class=\"player-info\">\n" ++
  "                <h3>" ++ playerName ++ "</h3>\n" ++
  "                <div class=\"team\">" ++ team ++ "</div>\n" ++
  "                " ++ rankPart ++ "\n" ++
  "            </div>\n" ++
  "            <div class=\"status-info\">\n" ++
  "                <div class=\"status-change\">" ++ statusChangeType.1 ++ "</div>\n" ++
  "                " ++ reasonPart ++ "\n" ++
  "                " ++ detailsPart ++ "\n" ++
  "            </div>\n" ++
  "        </div>\n        "

/-! ## Notification service (`NotificationService`, backend/notifier/service.py) -/

/-- Which channel notifier objects the service holds: each is constructed only
when enabled in settings (service constructor, lines 22-27). -/
structure ServiceCfg where
  email_notifier : Bool
  push_notifier : Bool
  websocket_notifier : Bool
  deriving DecidableEq, Repr

/-- The `"data"` payload attached to a websocket notification (service.py,
lines 151-158). -/
structure WsData where
  html : String
  player_id : Nat
  team : String
  old_status : Option String
  new_status : String
  change_id : Nat
  deriving DecidableEq, Repr

/-- One entry of `notifications_to_send` (service.py lines 122-161).  The
push channel uses the numeric user id as recipient and the websocket channel
`str(user.id)`; both are rendered in decimal here. -/
structure PendingNotification where
  channel : String
  recipient : String
  subject : String
  message : String
  html_message : Option String := none
  data : Option WsData := none
  user_id : Nat
  change_id : Nat
  deriving DecidableEq, Repr

/-- Whether a notification setting applies to a change:
`ns.player_id == change.player_id or ns.team == change.player.team`
(both the SQL join condition at lines 60-71 and the Python `next` predicate at
lines 83-89; a NULL scope column matches nothing). -/
def matchesSetting (ns : NotifSetting) (ch : DbStatusChange) : Bool :=
  ns.player_id == some ch.player_id || ns.team == some ch.player.team

/-- Effective per-channel enablement (service.py lines 82-99): the *first*
setting in the user's `notification_settings` list that matches the change's
player or team supplies all three flags; with no matching setting the user's
global toggles apply. -/
def effectiveChannels (u : DbUser) (ch : DbStatusChange) : Bool × Bool × Bool :=
  match u.notification_settings.find? (fun ns => matchesSetting ns ch) with
  | some ns => (ns.email_enabled, ns.push_enabled, ns.web_enabled)
  | none => (u.email_notifications, u.push_notifications, u.web_notifications)

/-- The notifications queued for one user about one change (service.py lines
76-161): quiet hours skip the user entirely; otherwise up to one entry per
channel, guarded by the effective flag *and* the service holding that
channel's notifier. -/
def notificationsForUser (svc : ServiceCfg) (nowSec : Nat) (ch : DbStatusChange)
    (u : DbUser) : List PendingNotification :=
  if isInQuietHours u nowSec then []
  else
    let flags := effectiveChannels u ch
    let fmt := formatInjuryChange ch.player.name ch.player.team ch.old_status ch.new_status
      none none
    let htmlFormatted := formatHtmlInjuryChange ch.player.name ch.player.team ch.old_status
      ch.new_status none none ch.player.current_rank
    (if flags.1 && svc.email_notifier then
      [{ channel := "email", recipient := u.email, subject := fmt.1, message := fmt.2,
         html_message := some htmlFormatted, user_id := u.id, change_id := ch.id }]
     else []) ++
    (if flags.2.1 && svc.push_notifier then
      [{ channel := "push", recipient := Nat.repr u.id, subject := fmt.1, message := fmt.2,
         user_id := u.id, change_id := ch.id }]
     else []) ++
    (if flags.2.2 && svc.websocket_notifier then
      [{ channel := "websocket", recipient := Nat.repr u.id, subject := fmt.1,
         message := fmt.2,
         data := some { html := htmlFormatted, player_id := ch.player_id,
                        team := ch.player.team, old_status := ch.old_status,
                        new_status := ch.new_status, change_id := ch.id },
         user_id := u.id, change_id := ch.id }]
     else [])

/-- The per-change subscriber query (service.py lines 60-71): active users
having at least one notification setting matching the change's player or
team.  (The legacy SQLAlchemy `Query` uniquifies entity results, so each user
row appears once however many of its settings match.) -/
def usersToNotify (users : List DbUser) (ch : DbStatusChange) : List DbUser :=
  users.filter (fun u => u.is_active && u.notification_settings.any (fun ns => matchesSetting ns ch))

/-- All notifications queued for one change, in user order. -/
def notificationsForChange (svc : ServiceCfg) (users : List DbUser) (nowSec : Nat)
    (ch : DbStatusChange) : List PendingNotification :=
  (usersToNotify users ch).flatMap (fun u => notificationsForUser svc nowSec ch u)

/-- One per-tuple result dict of a channel `send_batch`
(backend/notifier/channels.py: lines 99-104/142-148 for email, 229-234/324-330
for websocket, 366-371/404-410 for push). -/
structure SendResult where
  success : Bool
  recipient : String
  subject : String
  channel : String
  error : Option String := none
  deriving DecidableEq, Repr

/-- A channel's `send_batch` (EmailNotifier lines 110-150, WebSocketNotifier
lines 292-332, PushNotifier lines 373-412 share this loop): attempt each
notification independently inside `try`, appending the success dict echoed by
`send_notification`, or a failure dict with the stringified exception, the
channel tag and the recipient.  `attempt` abstracts the individual
`send_notification` outcome. -/
def sendBatch (channel : String) (attempt : PendingNotification → Except String Unit)
    (notifications : List PendingNotification) : List SendResult :=
  notifications.map (fun n =>
    match attempt n with
    | .ok _ => { success := true, recipient := n.recipient, subject := n.subject,
                 channel := channel }
    | .error e => { success := false, recipient := n.recipient, subject := n.subject,
                    channel := channel, error := some e })

/-- `NotificationService._send_notifications` (service.py lines 179-229):
group by channel tag, call each configured channel's batch send for a
nonempty group inside `try` (a channel batch that raises contributes no
results and aborts nothing else), and concatenate the collected results in
email, push, websocket order.  `batchSend` abstracts the channel batch calls,
returning `.error` where the source's `except` would catch. -/
def sendNotifications (svc : ServiceCfg)
    (batchSend : String → List PendingNotification → Except String (List SendResult))
    (notifications : List PendingNotification) : List SendResult :=
  let emailNs := notifications.filter (fun n => n.channel == "email")
  let pushNs := notifications.filter (fun n => n.channel == "push")
  let wsNs := notifications.filter (fun n => n.channel == "websocket")
  (if !emailNs.isEmpty && svc.email_notifier then
    match batchSend "email" emailNs with
    | .ok rs => rs
    | .error _ => []
   else []) ++
  (if !pushNs.isEmpty && svc.push_notifier then
    match batchSend "push" pushNs with
    | .ok rs => rs
    | .error _ => []
   else []) ++
  (if !wsNs.isEmpty && svc.websocket_notifier then
    match batchSend "websocket" wsNs with
    | .ok rs => rs
    | .error _ => []
   else [])

/-- The mark-as-notified pass (service.py lines 166-171) applied to the rows
the opening query selected: every row whose id is in the dispatched set and
that was not yet notified gets `notification_sent = True` and the current
timestamp. -/
def markDelivered (changeIds : List Nat) (now : Nat) (db : List DbStatusChange) :
    List DbStatusChange :=
  db.map (fun c =>
    if changeIds.contains c.id && !c.notification_sent then
      { c with notification_sent := true, notification_date := some now }
    else c)

/-- The dict returned by `process_status_changes`; the early return at line 51
carries no `results` key, hence the option. -/
structure ProcessResult where
  success : Bool
  notifications_sent : Nat
  results : Option (List SendResult)
  deriving DecidableEq, Repr

/-- `NotificationService.process_status_changes` (service.py lines 29-177).
`changeIds` are the ids of the dicts handed in; `db` is the `StatusChange`
table; `now` is the wall clock (dates as-is, time of day `now % 86400` for
quiet hours).  Returns the result dict, the notifications handed to the
channel senders (instrumentation of the `_send_notifications` call), and the
updated table.  The opening query keeps only handed-in, not-yet-notified rows;
if none remain it returns immediately; otherwise it queues notifications,
dispatches them, and marks every selected row as notified regardless of the
send results. -/
def processStatusChanges (svc : ServiceCfg) (users : List DbUser) (now : Nat)
    (batchSend : String → List PendingNotification → Except String (List SendResult))
    (changeIds : List Nat) (db : List DbStatusChange) :
    ProcessResult × List PendingNotification × List DbStatusChange :=
  let dbChanges := db.filter (fun c => changeIds.contains c.id && !c.notification_sent)
  if dbChanges.isEmpty then
    ({ success := true, notifications_sent := 0, results := none }, [], db)
  else
    let toSend := dbChanges.flatMap (fun ch => notificationsForChange svc users (now % 86400) ch)
    let results := sendNotifications svc batchSend toSend
    ({ success := true, notifications_sent := results.length, results := some results },
     toSend, markDelivered changeIds now db)

/-! ## Map-equality of JSON payloads

The spec-side notion for claim C9: two payloads are equal as key-value maps
when they agree up to the order in which object keys were inserted —
objects have the same key set (no duplicates, as Python dicts cannot hold
any) and map-equal values key by key, arrays have equal length and map-equal
elements position by position. -/

inductive MapEq : Json → Json → Prop where
  | refl (j : Json) : MapEq j j
  | arr (xs ys : JsonArr) (hlen : arrLen xs = arrLen ys)
      (hval : ∀ i x y, arrGet i xs = some x → arrGet i ys = some y → MapEq x y) :
      MapEq (.arr xs) (.arr ys)
  | obj (fs gs : JsonObj) (hkeys : (objKeys fs).Perm (objKeys gs))
      (hnf : (objKeys fs).Nodup) (hng : (objKeys gs).Nodup)
      (hval : ∀ k v w, objLookup k fs = some v → objLookup k gs = some w → MapEq v w) :
      MapEq (.obj fs) (.obj gs)

/-- Fixture for claim C7: a 503 response followed by timeouts. -/
def envHttp503ThenTimeout : Nat → ReqOutcome :=
  fun i => if i = 0 then .response 503 "server error" none else .timeout

/-- Fixture for claim C7: connection failures on every attempt. -/
def envAllConnError : Nat → ReqOutcome := fun _ => .connError "boom"

/-- Fixture for claim C7: agrees with `envAllConnError` on attempts 0..2 and
succeeds afterwards. -/
def envConnErrorThenOk : Nat → ReqOutcome :=
  fun i => if i ≤ 2 then .connError "boom" else .response 200 "ok" none


/-- The row `NBAInjuryFetcher.fetch` persists on a fingerprint miss. -/
def newStoredReport (data : Json) (now : Nat) (url : String) (db : List StoredReport) :
    StoredReport :=
  { id := db.length + 1, report_hash := generate_hash data, report_date := now,
    source_url := url, raw_content := pyDumps data }

/-- All three channel notifiers configured (claim C3 fixtures). -/
def svcAllChannels : ServiceCfg :=
  { email_notifier := true, push_notifier := true, websocket_notifier := true }

/-- Claim C3 fixture: a team-scoped override with email disabled, listed
before the player-scoped one. -/
def cexTeamSetting : NotifSetting :=
  { player_id := none, team := some "BOS", email_enabled := false,
    push_enabled := false, web_enabled := false }

/-- Claim C3 fixture: a Subject-scoped (player-scoped) override with email
enabled. -/
def cexSubjectSetting : NotifSetting :=
  { player_id := some 7, team := none, email_enabled := true,
    push_enabled := false, web_enabled := false }

/-- Claim C3 fixture: an active subscriber with global email off whose
settings list holds the team-scoped override first and the player-scoped one
second. -/
def cexUser : DbUser :=
  { id := 3, email := "fan@example.com", is_active := true,
    email_notifications := false, push_notifications := false,
    web_notifications := false, quiet_hours_start := none,
    quiet_hours_end := none,
    notification_settings := [cexTeamSetting, cexSubjectSetting] }

/-- Claim C3 fixture: a change for player 7 on team BOS — matched by both of
`cexUser`'s overrides. -/
def cexChange : DbStatusChange :=
  { id := 11, player_id := 7, old_status := some "OUT",
    new_status := "QUESTIONABLE", change_date := 0, report_id := 1,
    notification_sent := false, notification_date := none,
    player := { id := 7, name := "Star Guard", team := "BOS", current_rank := some 5 } }

/-- Claim C3 fixture: a subscriber with global email off whose only override
is Subject-scoped with email on. -/
def prefUser : DbUser :=
  { id := 4, email := "sub@example.com", is_active := true,
    email_notifications := false, push_notifications := false,
    web_notifications := false, quiet_hours_start := none,
    quiet_hours_end := none,
    notification_settings := [cexSubjectSetting] }

/-- Claim C3 fixture: a change for an unrelated subject (player 8, team LAL)
matched by none of `prefUser`'s overrides. -/
def prefOtherChange : DbStatusChange :=
  { id := 12, player_id := 8, old_status := none, new_status := "OUT",
    change_date := 0, report_id := 1, notification_sent := false,
    notification_date := none,
    player := { id := 8, name := "Other Forward", team := "LAL", current_rank := none } }

/-- Keys of an object's canonical form: pairwise `strLe` in stored order. -/
def ObjKeysSorted (o : JsonObj) : Prop :=
  (objKeys o).Pairwise (fun a b => strLe a b = true)

/-- Claim C9 fixture: `{"b": 2, "a": {"y": 1, "x": "s"}}`. -/
def hashDictA : Json :=
  .obj (.cons "b" (.num 2) (.cons "a"
    (.obj (.cons "y" (.num 1) (.cons "x" (.str "s") .nil))) .nil))

/-- Claim C9 fixture: the same map with both nesting levels reordered:
`{"a": {"x": "s", "y": 1}, "b": 2}`. -/
def hashDictB : Json :=
  .obj (.cons "a" (.obj (.cons "x" (.str "s") (.cons "y" (.num 1) .nil)))
    (.cons "b" (.num 2) .nil))

lemma find?_append_none {p : StoredReport → Bool} {l₁ l₂ : List StoredReport}
    (h : l₁.find? p = none) : (l₁ ++ l₂).find? p = l₂.find? p := by
  induction l₁ with
  | nil => rfl
  | cons a t ih =>
    cases hp : p a with
    | true => simp [List.find?_cons, hp] at h
    | false =>
      simp only [List.cons_append, List.find?_cons, hp] at h ⊢
      exact ih h

/-- Claim C5: fetching byte-identical payload content twice yields one
persisted Snapshot.  With no stored report carrying the payload's
fingerprint, the first fetch persists the report before returning and reports
`is_new = true`; the second fetch of the same payload finds the fingerprint,
persists nothing, and reports `is_new = false`; exactly one stored row carries
the fingerprint afterwards. -/
theorem fetch_dedup_idempotent (data : Json) (now now2 : Nat) (url url2 : String)
    (db : List StoredReport)
    (hclean : ∀ r ∈ db, r.report_hash ≠ generate_hash data) :
    nbaFetch (.ok data) now url db =
      .ok ({ data := data, hash := generate_hash data, is_new := true,
             report_id := some (db.length + 1) },
           db ++ [newStoredReport data now url db]) ∧
    nbaFetch (.ok data) now2 url2 (db ++ [newStoredReport data now url db]) =
      .ok ({ data := data, hash := generate_hash data, is_new := false, report_id := none },
           db ++ [newStoredReport data now url db]) ∧
    ((db ++ [newStoredReport data now url db]).filter
        (fun r => r.report_hash == generate_hash data)).length = 1 := by
  have hnone : db.find? (fun r => r.report_hash == generate_hash data) = none := by
    rw [List.find?_eq_none]
    intro r hr
    simpa using hclean r hr
  have hsingle :
      ([newStoredReport data now url db].find?
        (fun r => r.report_hash == generate_hash data)) =
      some (newStoredReport data now url db) := by
    simp [newStoredReport]
  refine ⟨?_, ?_, ?_⟩
  · simp [nbaFetch, hnone, newStoredReport]
  · rw [nbaFetch]
    rw [find?_append_none hnone, hsingle]
  · rw [List.filter_append]
    have h1 : db.filter (fun r => r.report_hash == generate_hash data) = [] := by
      rw [List.filter_eq_nil_iff]
      intro r hr
      simpa using hclean r hr
    rw [h1]
    simp [newStoredReport]

/-- Claim C5 witness: a concrete payload against an empty table. -/
theorem fetch_dedup_idempotent_witness :
    (∀ r ∈ ([] : List StoredReport),
      r.report_hash ≠ generate_hash (Json.obj (.cons "players" (.arr .nil) .nil))) ∧
    (nbaFetch (.ok (Json.obj (.cons "players" (.arr .nil) .nil))) 5 "u" [] =
      .ok ({ data := Json.obj (.cons "players" (.arr .nil) .nil),
             hash := generate_hash (Json.obj (.cons "players" (.arr .nil) .nil)),
             is_new := true, report_id := some 1 },
           [newStoredReport (Json.obj (.cons "players" (.arr .nil) .nil)) 5 "u" []]) ∧
     nbaFetch (.ok (Json.obj (.cons "players" (.arr .nil) .nil))) 9 "u2"
        [newStoredReport (Json.obj (.cons "players" (.arr .nil) .nil)) 5 "u" []] =
      .ok ({ data := Json.obj (.cons "players" (.arr .nil) .nil),
             hash := generate_hash (Json.obj (.cons "players" (.arr .nil) .nil)),
             is_new := false, report_id := none },
           [newStoredReport (Json.obj (.cons "players" (.arr .nil) .nil)) 5 "u" []]) ∧
     ([newStoredReport (Json.obj (.cons "players" (.arr .nil) .nil)) 5 "u" []].filter
        (fun r => r.report_hash ==
          generate_hash (Json.obj (.cons "players" (.arr .nil) .nil)))).length = 1) := by
  refine ⟨by simp, ?_⟩
  have h := fetch_dedup_idempotent (Json.obj (.cons "players" (.arr .nil) .nil)) 5 9 "u" "u2"
    [] (by simp)
  simpa using h

/-- Claim C10: every failure raised inside `NBAInjuryFetcher.fetch` — including
a rate-limit `FetcherError` with `status_code = 429` and a `retry_after` wait —
is caught and re-raised as a fresh `FetcherError` whose `retry_after` is `None`
and whose `status_code` is the default 500, so neither the wait nor the
original status is observable by any caller of `fetch`. -/
theorem fetch_error_wrapping (e : PyFetcherError) (now : Nat) (url : String)
    (db : List StoredReport) :
    nbaFetch (.error e) now url db =
      .error { message := "Failed to fetch NBA injury report: " ++ e.message } ∧
    (wrapFetchError e).retry_after = none ∧
    (wrapFetchError e).status_code = 500 :=
  ⟨rfl, rfl, rfl⟩

/-- Claim C6 (code bug evidence): a provider 429 with `Retry-After: 77` raises
a rate-limit error from `_make_request`, but `fetch`'s blanket handler
re-wraps it with `retry_after = None`, so the polling loop's rate-limit branch
(`if e.retry_after`) never fires and the loop sleeps the normal poll interval
(300 here) instead of the provider-specified 77 seconds. -/
theorem rate_limit_wait_lost :
    makeRequest (fun _ => .response 429 "" (some 77)) 3 0 =
      .error { message := "Rate limited by the API", status_code := 429,
               retry_after := some 77 } ∧
    nbaFetch (.error { message := "Rate limited by the API", status_code := 429,
                       retry_after := some 77 }) 0 "url" [] =
      .error { message := "Failed to fetch NBA injury report: Rate limited by the API" } ∧
    pollIterationSleeps
      (.error { message := "Failed to fetch NBA injury report: Rate limited by the API" })
      300 = ([300], false) ∧
    (300 : Nat) ≠ 77 := by
  refine ⟨?_, rfl, rfl, by decide⟩
  simp [makeRequest]

/-- Claim C8: a channel's `send_batch` returns exactly one result per input
payload, in input order, each echoing the recipient, the subject and the
channel tag; a failing individual send yields a failure result with an error
string and never aborts the batch — every payload gets its attempt recorded
whatever the other outcomes were. -/
theorem sendBatch_one_result_per_payload (channel : String)
    (attempt : PendingNotification → Except String Unit)
    (notifications : List PendingNotification) :
    (sendBatch channel attempt notifications).length = notifications.length ∧
    List.Forall₂
      (fun n r =>
        r.recipient = n.recipient ∧ r.subject = n.subject ∧ r.channel = channel ∧
        (match attempt n with
         | .ok _ => r.success = true ∧ r.error = none
         | .error e => r.success = false ∧ r.error = some e))
      notifications (sendBatch channel attempt notifications) := by
  constructor
  · simp [sendBatch]
  · induction notifications with
    | nil => exact List.Forall₂.nil
    | cons n ns ih =>
      refine List.Forall₂.cons ?_ ih
      cases h : attempt n <;> simp [h]


/-- Claim C4: quiet-hours evaluation never suppresses when either bound is
absent; for a parsed window it suppresses per the inclusive same-day formula
when `start <= end` and per the midnight-spanning disjunction when
`start > end`; malformed (unparsable) bounds never suppress (fail open). -/
theorem quiet_hours_cases (u : DbUser) (now : Nat) :
    ((u.quiet_hours_start = none ∨ u.quiet_hours_end = none) →
      isInQuietHours u now = false) ∧
    (∀ qs qe, u.quiet_hours_start = some qs → u.quiet_hours_end = some qe →
      (parseClockSeconds qs = none ∨ parseClockSeconds qe = none) →
      isInQuietHours u now = false) ∧
    (∀ qs qe s e, u.quiet_hours_start = some qs → u.quiet_hours_end = some qe →
      parseClockSeconds qs = some s → parseClockSeconds qe = some e →
      isInQuietHours u now =
        if s ≤ e then decide (s ≤ now ∧ now ≤ e) else decide (s ≤ now ∨ now ≤ e)) := by
  refine ⟨?_, ?_, ?_⟩
  · rintro (h | h) <;> simp [isInQuietHours, h]
  · intro qs qe hqs hqe hbad
    rw [isInQuietHours, hqs, hqe]
    rcases hbad with hb | hb <;> simp [hb]
  · intro qs qe s e hqs hqe hs he
    have hqsne : qs ≠ "" := by
      intro h
      rw [h] at hs
      exact Option.noConfusion hs
    have hqene : qe ≠ "" := by
      intro h
      rw [h] at he
      exact Option.noConfusion he
    rw [isInQuietHours, hqs, hqe]
    simp [hqsne, hqene, hs, he]

/-- Claim C4 witness, the claim's concrete examples: window ("22:00","06:00")
suppresses 23:30 and not 12:00; window ("09:00","17:00") suppresses 12:00 and
not 20:00. -/
theorem quiet_hours_cases_witness :
    isInQuietHours
      { id := 1, email := "night@example.com", is_active := true,
        email_notifications := true, push_notifications := false,
        web_notifications := true, quiet_hours_start := some "22:00",
        quiet_hours_end := some "06:00", notification_settings := [] } 84600 = true ∧
    isInQuietHours
      { id := 1, email := "night@example.com", is_active := true,
        email_notifications := true, push_notifications := false,
        web_notifications := true, quiet_hours_start := some "22:00",
        quiet_hours_end := some "06:00", notification_settings := [] } 43200 = false ∧
    isInQuietHours
      { id := 2, email := "day@example.com", is_active := true,
        email_notifications := true, push_notifications := false,
        web_notifications := true, quiet_hours_start := some "09:00",
        quiet_hours_end := some "17:00", notification_settings := [] } 43200 = true ∧
    isInQuietHours
      { id := 2, email := "day@example.com", is_active := true,
        email_notifications := true, push_notifications := false,
        web_notifications := true, quiet_hours_start := some "09:00",
        quiet_hours_end := some "17:00", notification_settings := [] } 72000 = false := by
  refine ⟨?_, ?_, ?_, ?_⟩
  · exact ((quiet_hours_cases _ 84600).2.2 "22:00" "06:00" 79200 21600 rfl rfl
      (by decide) (by decide)).trans (by decide)
  · exact ((quiet_hours_cases _ 43200).2.2 "22:00" "06:00" 79200 21600 rfl rfl
      (by decide) (by decide)).trans (by decide)
  · exact ((quiet_hours_cases _ 43200).2.2 "09:00" "17:00" 32400 61200 rfl rfl
      (by decide) (by decide)).trans (by decide)
  · exact ((quiet_hours_cases _ 72000).2.2 "09:00" "17:00" 32400 61200 rfl rfl
      (by decide) (by decide)).trans (by decide)


lemma makeRequest_agree (env env' : Nat → ReqOutcome) (maxR r : Nat) (hr : r ≤ maxR)
    (h : ∀ i, i ≤ maxR → env' i = env i) :
    makeRequest env' maxR r = makeRequest env maxR r := by
  conv_lhs => rw [makeRequest]
  conv_rhs => rw [makeRequest]
  rw [h r hr]
  cases henv : env r with
  | response st body hdr =>
    by_cases h429 : st = 429
    · simp [h429]
    · by_cases herr : 400 ≤ st
      · by_cases hretry : r < maxR
        · simp only [h429, herr, hretry, if_true, if_false, if_neg, if_pos]
          exact makeRequest_agree env env' maxR (r + 1) (by omega) h
        · simp [h429, herr, hretry]
      · simp [h429, herr]
  | timeout =>
    by_cases hretry : r < maxR
    · simp only [hretry, if_pos]
      exact makeRequest_agree env env' maxR (r + 1) (by omega) h
    · simp [hretry]
  | connError msg =>
    by_cases hretry : r < maxR
    · simp only [hretry, if_pos]
      exact makeRequest_agree env env' maxR (r + 1) (by omega) h
    · simp [hretry]
termination_by maxR - r

lemma makeRequest_exhausts (env : Nat → ReqOutcome) (maxR r : Nat) (hr : r ≤ maxR)
    (htrans : ∀ i, r ≤ i → i ≤ maxR → isTransient (env i) = true) :
    makeRequest env maxR r = .error (exhaustedError (env maxR)) := by
  have ht := htrans r (Nat.le_refl r) hr
  rw [makeRequest]
  cases henv : env r with
  | response st body hdr =>
    rw [henv] at ht
    simp only [isTransient, Bool.and_eq_true, decide_eq_true_eq, ne_eq] at ht
    dsimp only
    rw [if_neg ht.2, if_pos ht.1]
    by_cases hretry : r < maxR
    · rw [if_pos hretry]
      exact makeRequest_exhausts env maxR (r + 1) (by omega)
        (fun i h1 h2 => htrans i (by omega) h2)
    · rw [if_neg hretry]
      have hmr : maxR = r := by omega
      subst hmr
      rw [henv]
      rfl
  | timeout =>
    dsimp only
    by_cases hretry : r < maxR
    · rw [if_pos hretry]
      exact makeRequest_exhausts env maxR (r + 1) (by omega)
        (fun i h1 h2 => htrans i (by omega) h2)
    · rw [if_neg hretry]
      have hmr : maxR = r := by omega
      subst hmr
      rw [henv]
      rfl
  | connError msg =>
    dsimp only
    by_cases hretry : r < maxR
    · rw [if_pos hretry]
      exact makeRequest_exhausts env maxR (r + 1) (by omega)
        (fun i h1 h2 => htrans i (by omega) h2)
    · rw [if_neg hretry]
      have hmr : maxR = r := by omega
      subst hmr
      rw [henv]
      rfl
termination_by maxR - r

/-- Claim C7 (counterexample to "carrying the last observed status"): with
`max_retries = 1`, attempt 0 observes HTTP 503 and attempt 1 (the last) times
out; the error raised after exhausting retries is the generic timeout
`FetcherError` with the default status 500 — not the last observed HTTP
status 503. -/
theorem transient_retry_last_status_cex :
    envHttp503ThenTimeout 0 = .response 503 "server error" none ∧
    makeRequest envHttp503ThenTimeout 1 0 =
      .error { message := "Request timed out after retries" } ∧
    ({ message := "Request timed out after retries" } : PyFetcherError).status_code = 500 ∧
    (500 : Nat) ≠ 503 := by
  refine ⟨rfl, ?_, rfl, by decide⟩
  rw [makeRequest]
  norm_num [envHttp503ThenTimeout]
  rw [makeRequest]
  norm_num [envHttp503ThenTimeout]

/-- Claim C7 (amended): for transient failures (non-429 4xx/5xx, timeout,
connection error) `_make_request` retries immediately with the same request
parameters at most `max_retries` times — at most `max_retries + 1` attempts in
all, witnessed by the result being determined by attempts `0..max_retries`
alone — and once the ceiling is exhausted raises a fetch error determined by
the *final* attempt: that attempt's HTTP status when it was an error
response, the default 500 with a timeout/connection message otherwise. -/
theorem transient_retry_ceiling (env env' : Nat → ReqOutcome) (maxRetries : Nat)
    (htrans : ∀ i, i ≤ maxRetries → isTransient (env i) = true)
    (hagree : ∀ i, i ≤ maxRetries → env' i = env i) :
    makeRequest env maxRetries 0 = .error (exhaustedError (env maxRetries)) ∧
    makeRequest env' maxRetries 0 = makeRequest env maxRetries 0 :=
  ⟨makeRequest_exhausts env maxRetries 0 (Nat.zero_le _) (fun i _ h2 => htrans i h2),
   makeRequest_agree env env' maxRetries 0 (Nat.zero_le _) hagree⟩

/-- Claim C7 witness: all three attempts under ceiling 2 fail with connection
errors, the run exhausts and raises the connection-error fetch error, and a
network that agrees on attempts 0..2 but would succeed on attempt 3 gives the
identical result — attempt 3 is never made. -/
theorem transient_retry_ceiling_witness :
    (∀ i, i ≤ 2 → isTransient (envAllConnError i) = true) ∧
    (∀ i, i ≤ 2 → envConnErrorThenOk i = envAllConnError i) ∧
    makeRequest envAllConnError 2 0 = .error (exhaustedError (envAllConnError 2)) ∧
    makeRequest envConnErrorThenOk 2 0 = makeRequest envAllConnError 2 0 := by
  have h1 : ∀ i, i ≤ 2 → isTransient (envAllConnError i) = true := by decide
  have h2 : ∀ i, i ≤ 2 → envConnErrorThenOk i = envAllConnError i := by decide
  have h := transient_retry_ceiling envAllConnError envConnErrorThenOk 2 h1 h2
  exact ⟨h1, h2, h.1, h.2⟩


lemma upsertStatus_fst (d : List (Nat × PlayerStatus)) (k : Nat) (v : PlayerStatus) :
    (upsertStatus d k v).map Prod.fst =
      if k ∈ d.map Prod.fst then d.map Prod.fst else d.map Prod.fst ++ [k] := by
  induction d with
  | nil => simp [upsertStatus]
  | cons e d' ih =>
    by_cases hk : e.1 = k
    · simp [upsertStatus, hk]
    · simp only [upsertStatus, if_neg hk, List.map_cons, ih]
      by_cases hmem : k ∈ d'.map Prod.fst <;>
        simp [hmem, Ne.symm hk]

lemma nodup_upsertStatus (d : List (Nat × PlayerStatus)) (k : Nat) (v : PlayerStatus)
    (h : (d.map Prod.fst).Nodup) : ((upsertStatus d k v).map Prod.fst).Nodup := by
  rw [upsertStatus_fst]
  by_cases hmem : k ∈ d.map Prod.fst
  · simpa [hmem] using h
  · simp only [hmem, if_false]
    simp [List.nodup_append, h, hmem]

lemma nodup_byPlayer_aux (l : List PlayerStatus) :
    ∀ acc : List (Nat × PlayerStatus), (acc.map Prod.fst).Nodup →
      (((l.foldl (fun acc s => upsertStatus acc s.player_id s) acc)).map Prod.fst).Nodup := by
  induction l with
  | nil => intro acc h; simpa using h
  | cons s t ih =>
    intro acc h
    exact ih _ (nodup_upsertStatus acc s.player_id s h)

lemma nodup_byPlayer (l : List PlayerStatus) : ((byPlayer l).map Prod.fst).Nodup :=
  nodup_byPlayer_aux l [] (by simp)

lemma diff_keyed_not_mem {d : List (Nat × PlayerStatus)}
    {f : Nat × PlayerStatus → Option ChangeRec} (pid : Nat)
    (hf : ∀ e r, f e = some r → r.player_id = e.1)
    (h : pid ∉ d.map Prod.fst) :
    (d.filterMap f).filter (fun r => r.player_id == pid) = [] := by
  induction d with
  | nil => rfl
  | cons e d' ih =>
    have hne : e.1 ≠ pid := by
      intro hk
      exact h (by simp [hk.symm])
    have htail : pid ∉ d'.map Prod.fst := fun hm => h (by simp [hm])
    rw [List.filterMap_cons]
    cases hfe : f e with
    | none => exact ih htail
    | some r =>
      rw [List.filter_cons]
      have : (r.player_id == pid) = false := by
        simp [hf e r hfe, hne]
      rw [this]
      exact ih htail

lemma diff_keyed {d : List (Nat × PlayerStatus)}
    {f : Nat × PlayerStatus → Option ChangeRec} (pid : Nat)
    (hf : ∀ e r, f e = some r → r.player_id = e.1)
    (hd : (d.map Prod.fst).Nodup) :
    (d.filterMap f).filter (fun r => r.player_id == pid) =
      match lookupStatus d pid with
      | some v => (f (pid, v)).toList
      | none => [] := by
  induction d with
  | nil => rfl
  | cons e d' ih =>
    rw [List.map_cons, List.nodup_cons] at hd
    by_cases hk : e.1 = pid
    · have he : e = (pid, e.2) := by
        cases e
        simp_all
      have hlook : lookupStatus (e :: d') pid = some e.2 := by
        simp [lookupStatus, List.find?_cons, hk]
      rw [hlook, List.filterMap_cons]
      have htail : pid ∉ d'.map Prod.fst := hk ▸ hd.1
      cases hfe : f e with
      | none =>
        rw [diff_keyed_not_mem pid hf htail]
        rw [he] at hfe
        simp [hfe]
      | some r =>
        rw [List.filter_cons]
        have : (r.player_id == pid) = true := by
          simp [hf e r hfe, hk]
        rw [this, diff_keyed_not_mem pid hf htail]
        rw [he] at hfe
        simp [hfe]
    · have hlook : lookupStatus (e :: d') pid = lookupStatus d' pid := by
        simp [lookupStatus, List.find?_cons, hk]
      rw [hlook, List.filterMap_cons]
      cases hfe : f e with
      | none => exact ih hd.2
      | some r =>
        rw [List.filter_cons]
        have : (r.player_id == pid) = false := by
          simp [hf e r hfe, hk]
        rw [this]
        exact ih hd.2


/-- Claim C1: for every pair of status lists keyed by player id, the diff
emits, per subject: exactly one changed record (old = previous status,
new = current status) when the subject is in both dicts with a different
status label; exactly one added record (old = null) when only in current;
exactly one removed record (old = previous status, new = the `"ACTIVE"`
baseline sentinel) when only in previous; and nothing when the status is
unchanged — stated as the diff filtered to any one subject id equalling the
per-case expectation.  The second conjunct is the claim's concrete scenario:
diffing current `[{id 1, QUESTIONABLE}, {id 2, OUT}]` against previous
`[{id 1, OUT}]` yields exactly `(id 1, OUT→QUESTIONABLE)` and
`(id 2, null→OUT)`. -/
theorem computeDiff_per_subject (current previous : List PlayerStatus) (pid : Nat) :
    ((computeDiff current previous).filter (fun r => r.player_id == pid) =
      diffExpected current previous pid) ∧
    computeDiff scenarioCurrent scenarioPrevious =
      [{ player_id := 1, player_name := "Player One", team := "BOS",
         old_status := some "OUT", new_status := "QUESTIONABLE",
         reason := none, details := none, rank := none },
       { player_id := 2, player_name := "Player Two", team := "LAL",
         old_status := none, new_status := "OUT",
         reason := none, details := none, rank := none }] := by
  constructor
  · have hf1 : ∀ (e : Nat × PlayerStatus) (r : ChangeRec),
        (match lookupStatus (byPlayer previous) e.1 with
         | some ps => if e.2.status ≠ ps.status then some (changedRec e.1 e.2 ps) else none
         | none => none) = some r → r.player_id = e.1 := by
      intro e r h
      cases hl : lookupStatus (byPlayer previous) e.1 with
      | none => rw [hl] at h; exact absurd h (by simp)
      | some ps =>
        rw [hl] at h
        dsimp only at h
        by_cases hst : e.2.status ≠ ps.status
        · rw [if_pos hst] at h
          cases h
          rfl
        · rw [if_neg hst] at h
          exact absurd h (by simp)
    have hf2 : ∀ (e : Nat × PlayerStatus) (r : ChangeRec),
        (if (lookupStatus (byPlayer previous) e.1).isNone then some (addedRec e.1 e.2)
         else none) = some r → r.player_id = e.1 := by
      intro e r h
      by_cases hl : (lookupStatus (byPlayer previous) e.1).isNone
      · rw [if_pos hl] at h
        cases h
        rfl
      · rw [if_neg hl] at h
        exact absurd h (by simp)
    have hf3 : ∀ (e : Nat × PlayerStatus) (r : ChangeRec),
        (if (lookupStatus (byPlayer current) e.1).isNone then some (removedRec e.1 e.2)
         else none) = some r → r.player_id = e.1 := by
      intro e r h
      by_cases hl : (lookupStatus (byPlayer current) e.1).isNone
      · rw [if_pos hl] at h
        cases h
        rfl
      · rw [if_neg hl] at h
        exact absurd h (by simp)
    simp only [computeDiff]
    rw [List.filter_append, List.filter_append]
    rw [diff_keyed pid hf1 (nodup_byPlayer current),
        diff_keyed pid hf2 (nodup_byPlayer current),
        diff_keyed pid hf3 (nodup_byPlayer previous)]
    cases hc : lookupStatus (byPlayer current) pid with
    | none =>
      cases hp : lookupStatus (byPlayer previous) pid with
      | none => simp [diffExpected, hc, hp]
      | some ps => simp [diffExpected, hc, hp]
    | some cs =>
      cases hp : lookupStatus (byPlayer previous) pid with
      | none => simp [diffExpected, hc, hp]
      | some ps =>
        by_cases hst : cs.status ≠ ps.status <;>
          simp [diffExpected, hc, hp, hst]
  · decide


lemma markDelivered_id_aux (changeIds : List Nat) (now : Nat) :
    ∀ db : List DbStatusChange,
      (∀ a ∈ db, ¬(changeIds.contains a.id && !a.notification_sent) = true) →
      markDelivered changeIds now db = db := by
  intro db
  induction db with
  | nil => intro _; rfl
  | cons c t ih =>
    intro hall
    have hc := hall c (List.mem_cons_self c t)
    show List.map _ (c :: t) = c :: t
    rw [List.map_cons, if_neg hc]
    have := ih (fun x hx => hall x (List.mem_cons_of_mem c hx))
    unfold markDelivered at this
    rw [this]

lemma markDelivered_id_of_filter_nil (changeIds : List Nat) (now : Nat)
    (db : List DbStatusChange)
    (h : db.filter (fun c => changeIds.contains c.id && !c.notification_sent) = []) :
    markDelivered changeIds now db = db :=
  markDelivered_id_aux changeIds now db (List.filter_eq_nil_iff.mp h)

lemma markDelivered_filter_nil (changeIds : List Nat) (now : Nat)
    (db : List DbStatusChange) :
    (markDelivered changeIds now db).filter
      (fun c => changeIds.contains c.id && !c.notification_sent) = [] := by
  rw [List.filter_eq_nil_iff]
  intro c hc
  rcases List.mem_map.mp hc with ⟨a, ha, rfl⟩
  by_cases hcond : (changeIds.contains a.id && !a.notification_sent) = true
  · rw [if_pos hcond]
    simp
  · rw [if_neg hcond]
    exact hcond

/-- Claim C2: one invocation of `process_status_changes` ends with exactly the
rows that were handed in and undelivered at its start marked
`notification_sent = true` with the current timestamp — the table update is
precisely `markDelivered`, whatever the channel batch outcomes (`batchSend` is
universally quantified, covering per-recipient failures and a whole channel
batch raising) — and a second invocation on the same record set at any later
time finds nothing undelivered, performs no further transition, hands nothing
to any channel, and reports zero notifications. -/
theorem process_status_changes_marks_once (svc : ServiceCfg) (users : List DbUser)
    (now now2 : Nat)
    (batchSend : String → List PendingNotification → Except String (List SendResult))
    (changeIds : List Nat) (db : List DbStatusChange) :
    (processStatusChanges svc users now batchSend changeIds db).2.2 =
      markDelivered changeIds now db ∧
    processStatusChanges svc users now2 batchSend changeIds
        (markDelivered changeIds now db) =
      ({ success := true, notifications_sent := 0, results := none }, [],
       markDelivered changeIds now db) := by
  constructor
  · by_cases h : (db.filter (fun c => changeIds.contains c.id && !c.notification_sent)).isEmpty
    · rw [List.isEmpty_iff] at h
      simp only [processStatusChanges, h]
      simp [markDelivered_id_of_filter_nil changeIds now db h]
    · simp only [processStatusChanges]
      rw [if_neg h]
  · have h2 := markDelivered_filter_nil changeIds now db
    simp only [processStatusChanges, h2]
    simp


/-- Claim C3 counterexample: the claim says a Subject-scoped override takes
precedence over a group-scoped one, so `cexUser` (global email off,
Subject-scoped override email on) should receive an email for `cexChange`.
The code instead takes *all* flags from the first matching entry of the
settings list — here the team-scoped override — so the effective email flag
is off and no email payload is built. -/
theorem pref_precedence_cex :
    cexSubjectSetting ∈ cexUser.notification_settings ∧
    cexSubjectSetting.player_id = some cexChange.player_id ∧
    cexSubjectSetting.email_enabled = true ∧
    cexUser.email_notifications = false ∧
    cexUser.is_active = true ∧
    isInQuietHours cexUser 0 = false ∧
    (effectiveChannels cexUser cexChange).1 = false ∧
    (notificationsForChange svcAllChannels [cexUser] 0 cexChange).filter
      (fun n => n.channel == "email") = [] := by
  decide

/-- Claim C3 (amended): effective per-channel enablement comes from the
*first* override in the subscriber's settings list matching the Subject or
the Subject's group (list order decides between a Subject-scoped and a
group-scoped match, not scope), falling back to the global toggles when none
matches; consequently the email payloads built for a change and a single
subscriber are exactly one entry when the subscriber is an active candidate,
outside quiet hours, with the first-match email flag on and the email channel
configured — and none otherwise.  In particular (second and third conjuncts)
a subscriber with global email off whose only — hence first — matching
override for a Subject is Subject-scoped with email on receives an email
payload for that Subject, and receives none for an unrelated Subject matched
by no override. -/
theorem pref_first_match_resolution (svc : ServiceCfg) (u : DbUser)
    (ch : DbStatusChange) (nowSec : Nat) :
    ((notificationsForChange svc [u] nowSec ch).filter (fun n => n.channel == "email") =
      if u.is_active && u.notification_settings.any (fun ns => matchesSetting ns ch) &&
         !isInQuietHours u nowSec && (effectiveChannels u ch).1 && svc.email_notifier then
        [{ channel := "email", recipient := u.email,
           subject := (formatInjuryChange ch.player.name ch.player.team ch.old_status
             ch.new_status none none).1,
           message := (formatInjuryChange ch.player.name ch.player.team ch.old_status
             ch.new_status none none).2,
           html_message := some (formatHtmlInjuryChange ch.player.name ch.player.team
             ch.old_status ch.new_status none none ch.player.current_rank),
           user_id := u.id, change_id := ch.id }]
      else []) ∧
    ((notificationsForChange svcAllChannels [prefUser] 0 cexChange).filter
      (fun n => n.channel == "email")).map (fun n => n.recipient) = ["sub@example.com"] ∧
    (notificationsForChange svcAllChannels [prefUser] 0 prefOtherChange).filter
      (fun n => n.channel == "email") = [] := by
  refine ⟨?_, by decide, by decide⟩
  simp only [notificationsForChange, usersToNotify]
  by_cases hcand : (u.is_active && u.notification_settings.any fun ns => matchesSetting ns ch) = true
  · by_cases hq : isInQuietHours u nowSec = true
    · simp [notificationsForUser, hq, hcand]
    · simp only [notificationsForUser, hq, Bool.false_eq_true, if_false, List.flatMap_cons,
        List.flatMap_nil, List.append_nil, hcand, Bool.and_eq_true, List.filter_append,
        List.filter_cons]
      simp_all
      split_ifs <;> simp_all
  · simp_all


lemma charListLe_refl : ∀ l : List Char, charListLe l l = true := by
  intro l
  induction l with
  | nil => rfl
  | cons a t ih => simp [charListLe, ih]

lemma charListLe_total : ∀ l₁ l₂ : List Char,
    charListLe l₁ l₂ = false → charListLe l₂ l₁ = true := by
  intro l₁
  induction l₁ with
  | nil => intro l₂ h; cases h
  | cons a t ih =>
    intro l₂ h
    cases l₂ with
    | nil => rfl
    | cons b s =>
      rw [charListLe] at h
      rw [charListLe]
      by_cases h1 : a.toNat < b.toNat
      · simp [h1] at h
      · by_cases h2 : b.toNat < a.toNat
        · simp [h2]
        · simp [h1, h2] at h ⊢
          exact ih s h

lemma charListLe_antisymm : ∀ l₁ l₂ : List Char,
    charListLe l₁ l₂ = true → charListLe l₂ l₁ = true → l₁ = l₂ := by
  intro l₁
  induction l₁ with
  | nil =>
    intro l₂ _ h₂
    cases l₂ with
    | nil => rfl
    | cons b s => cases h₂
  | cons a t ih =>
    intro l₂ h₁ h₂
    cases l₂ with
    | nil => cases h₁
    | cons b s =>
      rw [charListLe] at h₁ h₂
      by_cases hab : a.toNat < b.toNat
      · simp [hab, Nat.lt_asymm hab, Nat.ne_of_lt hab] at h₂
      · by_cases hba : b.toNat < a.toNat
        · simp [hab, hba] at h₁
        · have hn : a.toNat = b.toNat := by omega
          have hc : a = b := by
            have := congrArg Char.ofNat hn
            rwa [Char.ofNat_toNat, Char.ofNat_toNat] at this
          simp [hab, hba] at h₁ h₂
          rw [hc, ih s h₁ h₂]

lemma charListLe_trans : ∀ l₁ l₂ l₃ : List Char,
    charListLe l₁ l₂ = true → charListLe l₂ l₃ = true → charListLe l₁ l₃ = true := by
  intro l₁
  induction l₁ with
  | nil => intro l₂ l₃ _ _; rfl
  | cons a t ih =>
    intro l₂ l₃ h₁ h₂
    cases l₂ with
    | nil => cases h₁
    | cons b s =>
      cases l₃ with
      | nil => cases h₂
      | cons c r =>
        rw [charListLe] at h₁ h₂ ⊢
        by_cases hab : a.toNat < b.toNat
        · by_cases hbc : b.toNat < c.toNat
          · simp [show a.toNat < c.toNat by omega]
          · by_cases hcb : c.toNat < b.toNat
            · simp [hbc, hcb] at h₂
            · simp [show a.toNat < c.toNat by omega]
        · by_cases hba : b.toNat < a.toNat
          · simp [hab, hba] at h₁
          · by_cases hbc : b.toNat < c.toNat
            · simp [show a.toNat < c.toNat by omega]
            · by_cases hcb : c.toNat < b.toNat
              · simp [hbc, hcb] at h₂
              · simp [hab, hba] at h₁
                simp [hbc, hcb] at h₂
                simp [show ¬a.toNat < c.toNat by omega, show ¬c.toNat < a.toNat by omega]
                exact ih s r h₁ h₂

lemma strLe_refl (a : String) : strLe a a = true := charListLe_refl a.data

lemma strLe_total (a b : String) (h : strLe a b = false) : strLe b a = true :=
  charListLe_total a.data b.data h

lemma strLe_antisymm (a b : String) (h₁ : strLe a b = true) (h₂ : strLe b a = true) :
    a = b := by
  have h := charListLe_antisymm a.data b.data h₁ h₂
  cases a
  cases b
  exact congrArg String.mk h

lemma strLe_trans (a b c : String) (h₁ : strLe a b = true) (h₂ : strLe b c = true) :
    strLe a c = true :=
  charListLe_trans a.data b.data c.data h₁ h₂


/-- Structural induction for `JsonObj` alone (the auto-generated recursor of
the mutual block carries motives for all three types). -/
theorem jsonObjInduction (motive : JsonObj → Prop) (hnil : motive .nil)
    (hcons : ∀ k v t, motive t → motive (.cons k v t)) : ∀ o, motive o
  | .nil => hnil
  | .cons k v t => hcons k v t (jsonObjInduction motive hnil hcons t)

/-- Structural induction for `JsonArr` alone. -/
theorem jsonArrInduction (motive : JsonArr → Prop) (hnil : motive .nil)
    (hcons : ∀ x t, motive t → motive (.cons x t)) : ∀ xs, motive xs
  | .nil => hnil
  | .cons x t => hcons x t (jsonArrInduction motive hnil hcons t)

lemma objKeys_insertObj (k : String) (v : Json) (o : JsonObj) :
    (objKeys (insertObj k v o)).Perm (k :: objKeys o) := by
  induction o using jsonObjInduction with
  | hnil => exact List.Perm.refl _
  | hcons kk vv t ih =>
    rw [insertObj]
    by_cases hle : strLe k kk = true
    · rw [if_pos hle]
      exact List.Perm.refl _
    · rw [if_neg hle]
      show (kk :: objKeys (insertObj k v t)).Perm (k :: kk :: objKeys t)
      exact (ih.cons kk).trans (List.Perm.swap k kk (objKeys t))

lemma objKeys_canonObj (o : JsonObj) : (objKeys (canonObj o)).Perm (objKeys o) := by
  induction o using jsonObjInduction with
  | hnil => exact List.Perm.refl _
  | hcons k v t ih =>
    show (objKeys (insertObj k (canon v) (canonObj t))).Perm (k :: objKeys t)
    exact (objKeys_insertObj k (canon v) (canonObj t)).trans (ih.cons k)

lemma objLookup_insertObj (q k : String) (v : Json) (o : JsonObj) :
    objLookup q (insertObj k v o) = if k = q then some v else objLookup q o := by
  induction o using jsonObjInduction with
  | hnil => rfl
  | hcons kk vv t ih =>
    rw [insertObj]
    by_cases hle : strLe k kk = true
    · rw [if_pos hle]
      rfl
    · rw [if_neg hle]
      show (if kk = q then some vv else objLookup q (insertObj k v t)) = _
      rw [ih]
      by_cases h1 : kk = q
      · by_cases h2 : k = q
        · exfalso
          apply hle
          rw [h2, ← h1 ]
          exact strLe_refl kk
        · simp [h1, h2, objLookup]
      · by_cases h2 : k = q <;> simp [h1, h2, objLookup]

lemma objLookup_canonObj (q : String) (o : JsonObj) :
    objLookup q (canonObj o) = (objLookup q o).map canon := by
  induction o using jsonObjInduction with
  | hnil => rfl
  | hcons k v t ih =>
    show objLookup q (insertObj k (canon v) (canonObj t)) = _
    rw [objLookup_insertObj, ih]
    by_cases hk : k = q <;> simp [hk, objLookup]

lemma objLookup_eq_none_iff (q : String) (o : JsonObj) :
    objLookup q o = none ↔ q ∉ objKeys o := by
  induction o using jsonObjInduction with
  | hnil => simp [objLookup, objKeys]
  | hcons k v t ih =>
    rw [objLookup, objKeys]
    by_cases hk : k = q
    · simp [hk]
    · simp [hk, ih, Ne.symm hk]

lemma sorted_insertObj (k : String) (v : Json) (o : JsonObj)
    (h : ObjKeysSorted o) : ObjKeysSorted (insertObj k v o) := by
  induction o using jsonObjInduction with
  | hnil => simp [ObjKeysSorted, insertObj, objKeys]
  | hcons kk vv t ih =>
    rw [ObjKeysSorted, objKeys, List.pairwise_cons] at h
    rw [insertObj]
    by_cases hle : strLe k kk = true
    · rw [if_pos hle]
      rw [ObjKeysSorted, objKeys, List.pairwise_cons]
      constructor
      · intro b hb
        rcases List.mem_cons.mp hb with hb | hb
        · rwa [hb]
        · exact strLe_trans k kk b hle (h.1 b hb)
      · rw [objKeys] at *
        exact List.Pairwise.cons h.1 h.2
    · rw [if_neg hle]
      rw [ObjKeysSorted, objKeys, List.pairwise_cons]
      constructor
      · intro b hb
        have hb' := (objKeys_insertObj k v t).mem_iff.mp hb
        rcases List.mem_cons.mp hb' with hb' | hb'
        · rw [hb']
          exact strLe_total k kk (Bool.not_eq_true _ ▸ hle)
        · exact h.1 b hb'
      · exact ih h.2

lemma sorted_canonObj (o : JsonObj) : ObjKeysSorted (canonObj o) := by
  induction o using jsonObjInduction with
  | hnil => simp [ObjKeysSorted, canonObj, objKeys]
  | hcons k v t ih =>
    exact sorted_insertObj k (canon v) (canonObj t) ih


lemma sorted_obj_ext : ∀ o₁ o₂ : JsonObj, ObjKeysSorted o₁ → ObjKeysSorted o₂ →
    (objKeys o₁).Nodup → (objKeys o₂).Nodup → (objKeys o₁).Perm (objKeys o₂) →
    (∀ q, objLookup q o₁ = objLookup q o₂) → o₁ = o₂ := by
  intro o₁
  induction o₁ using jsonObjInduction with
  | hnil =>
    intro o₂ _ _ _ _ hperm _
    cases o₂ with
    | nil => rfl
    | cons k₂ v₂ t₂ => exact absurd hperm.length_eq (by simp [objKeys])
  | hcons k v t ih =>
    intro o₂ hs₁ hs₂ hn₁ hn₂ hperm hlook
    cases o₂ with
    | nil => exact absurd hperm.length_eq (by simp [objKeys])
    | cons k₂ v₂ t₂ =>
      rw [ObjKeysSorted, objKeys, List.pairwise_cons] at hs₁ hs₂
      rw [objKeys, List.nodup_cons] at hn₁ hn₂
      rw [objKeys] at hperm
      have hk : k = k₂ := by
        by_contra hne
        have hmem₂ : k₂ ∈ k :: objKeys t := by
          apply hperm.mem_iff.mpr
          show k₂ ∈ objKeys (JsonObj.cons k₂ v₂ t₂)
          simp [objKeys]
        have h2t : k₂ ∈ objKeys t := by
          rcases List.mem_cons.mp hmem₂ with h | h
          · exact absurd h.symm hne
          · exact h
        have hmem₁ : k ∈ objKeys (JsonObj.cons k₂ v₂ t₂) := by
          apply hperm.mem_iff.mp
          simp
        rw [objKeys, List.mem_cons] at hmem₁
        have h1t : k ∈ objKeys t₂ := by
          rcases hmem₁ with h | h
          · exact absurd h hne
          · exact h
        exact hne (strLe_antisymm k k₂ (hs₁.1 k₂ h2t) (hs₂.1 k h1t))
      subst hk
      have hv : v = v₂ := by
        have hq := hlook k
        rw [objLookup, objLookup, if_pos rfl, if_pos rfl] at hq
        exact Option.some.inj hq
      subst hv
      have ht : t = t₂ := by
        apply ih t₂ hs₁.2 hs₂.2 hn₁.2 hn₂.2 (hperm.cons_inv)
        intro q
        have hq := hlook q
        rw [objLookup, objLookup] at hq
        by_cases hkq : k = q
        · subst hkq
          rw [(objLookup_eq_none_iff k t).mpr hn₁.1, (objLookup_eq_none_iff k t₂).mpr hn₂.1]
        · rwa [if_neg hkq, if_neg hkq] at hq
      rw [ht]

lemma canonArr_ext : ∀ xs ys : JsonArr, arrLen xs = arrLen ys →
    (∀ i x y, arrGet i xs = some x → arrGet i ys = some y → canon x = canon y) →
    canonArr xs = canonArr ys := by
  intro xs
  induction xs using jsonArrInduction with
  | hnil =>
    intro ys hlen _
    cases ys with
    | nil => rfl
    | cons y s => exact absurd hlen (by simp [arrLen])
  | hcons x t ih =>
    intro ys hlen hval
    cases ys with
    | nil => exact absurd hlen (by simp [arrLen])
    | cons y s =>
      have h0 : canon x = canon y := hval 0 x y rfl rfl
      have ht : canonArr t = canonArr s := by
        apply ih s
        · have : arrLen t + 1 = arrLen s + 1 := hlen
          omega
        · exact fun i a b ha hb => hval (i + 1) a b ha hb
      show JsonArr.cons (canon x) (canonArr t) = JsonArr.cons (canon y) (canonArr s)
      rw [h0, ht]

lemma canon_eq_of_mapEq {a b : Json} (h : MapEq a b) : canon a = canon b := by
  induction h with
  | refl j => rfl
  | arr xs ys hlen hval ih =>
    show Json.arr (canonArr xs) = Json.arr (canonArr ys)
    exact congrArg Json.arr (canonArr_ext xs ys hlen ih)
  | obj fs gs hkeys hnf hng hval ih =>
    show Json.obj (canonObj fs) = Json.obj (canonObj gs)
    refine congrArg Json.obj (sorted_obj_ext (canonObj fs) (canonObj gs)
      (sorted_canonObj fs) (sorted_canonObj gs)
      ((objKeys_canonObj fs).nodup_iff.mpr hnf)
      ((objKeys_canonObj gs).nodup_iff.mpr hng)
      ((objKeys_canonObj fs).trans (hkeys.trans (objKeys_canonObj gs).symm))
      ?_)
    intro q
    rw [objLookup_canonObj, objLookup_canonObj]
    cases hf : objLookup q fs with
    | none =>
      have hnotf : q ∉ objKeys fs := (objLookup_eq_none_iff q fs).mp hf
      have hnotg : q ∉ objKeys gs := fun hm => hnotf (hkeys.mem_iff.mpr hm)
      rw [(objLookup_eq_none_iff q gs).mpr hnotg]
    | some v =>
      cases hg : objLookup q gs with
      | none =>
        exfalso
        have hnotg : q ∉ objKeys gs := (objLookup_eq_none_iff q gs).mp hg
        have hinf : q ∈ objKeys fs := by
          by_contra hno
          rw [(objLookup_eq_none_iff q fs).mpr hno] at hf
          cases hf
        exact hnotg (hkeys.mem_iff.mp hinf)
      | some w =>
        have := ih q v w hf hg
        simp [this]


/-- Claim C9: the content fingerprint is a deterministic function of payload
content under the canonical, order-independent serialization: payloads that
are equal as key-value maps — whatever the key insertion order, at any
nesting depth — hash to the same hexadecimal string.  Determinism ("calling
`generate_hash` twice returns the same string") is the instance
`b := a`, `h := MapEq.refl a`. -/
theorem generate_hash_order_independent (a b : Json) (h : MapEq a b) :
    generate_hash a = generate_hash b := by
  have hc := canon_eq_of_mapEq h
  cases h with
  | refl j => rfl
  | arr xs ys hlen hval =>
    show sha256Hex (utf8Bytes (pyDumpsSorted (.arr xs))) =
      sha256Hex (utf8Bytes (pyDumpsSorted (.arr ys)))
    rw [pyDumpsSorted, pyDumpsSorted, hc]
  | obj fs gs hkeys hnf hng hval =>
    show sha256Hex (utf8Bytes (pyDumpsSorted (.obj fs))) =
      sha256Hex (utf8Bytes (pyDumpsSorted (.obj gs)))
    rw [pyDumpsSorted, pyDumpsSorted, hc]

/-- Claim C9 witness: the two concrete fixtures are map-equal (explicit
`MapEq` derivation) and hash identically. -/
theorem generate_hash_order_independent_witness :
    MapEq hashDictA hashDictB ∧ generate_hash hashDictA = generate_hash hashDictB := by
  have hinner : MapEq (.obj (.cons "y" (.num 1) (.cons "x" (.str "s") .nil)))
      (.obj (.cons "x" (.str "s") (.cons "y" (.num 1) .nil))) := by
    refine MapEq.obj _ _ (by decide) (by decide) (by decide) ?_
    intro k v w hv hw
    by_cases h1 : "y" = k
    · subst h1
      simp [objLookup] at hv hw
      subst hv
      subst hw
      exact MapEq.refl _
    · by_cases h2 : "x" = k
      · subst h2
        simp [objLookup, h1] at hv hw
        subst hv
        subst hw
        exact MapEq.refl _
      · simp [objLookup, h1, h2] at hv
  have houter : MapEq hashDictA hashDictB := by
    refine MapEq.obj _ _ (by decide) (by decide) (by decide) ?_
    intro k v w hv hw
    by_cases h1 : "b" = k
    · subst h1
      simp [objLookup] at hv hw
      subst hv
      subst hw
      exact MapEq.refl _
    · by_cases h2 : "a" = k
      · subst h2
        simp [objLookup, h1] at hv hw
        subst hv
        subst hw
        exact hinner
      · simp [objLookup, h1, h2] at hv
  exact ⟨houter, generate_hash_order_independent hashDictA hashDictB houter⟩

end NbaInjuryAlert
